import Mathlib

/-!
Verification of the Minesweeper board engine in `src/game.py`
(`MinesweeperGame`): mine placement with a first-click exclusion zone,
adjacency-count computation, recursive flood-fill reveal, and the
win/loss/visible-state queries.

Embedding conventions:
* the numpy arrays `minefield`, `exposedfield`, `numberfield` are functions
  `Nat → Nat → _` (only indices below `width`/`height` are ever read by the
  source, always behind the bounds guard of `guess`);
* Python's `None` for the not-yet-generated `minefield`/`numberfield` is
  represented by the `minefield_initialized` flag being `false` (the source
  never reads either array while the flag is false);
* the stream of `random.randrange` outputs consumed by `generate_minefield`
  is an explicit argument `picks : List (Nat × Nat)`; the source's
  rejection-sampling `while` loop becomes a fold over that finite stream,
  stopping as soon as the requested number of mines is placed;
* the recursion of `guess` is driven by a fuel argument; `guess` itself
  supplies `width * height + 1` fuel, which is proved sufficient
  (`guess_eq_guessAux`), so the fuel cutoff is never reached.
-/

set_option maxRecDepth 4000

namespace Minesweeper

/-- State of `MinesweeperGame` (src/game.py): two boolean grids (`minefield`,
`exposedfield`), the cached adjacency counts `numberfield`, the dimensions and
requested mine count, and the flag recording whether the mine data exists. -/
structure MinesweeperGame where
  width : Nat
  height : Nat
  mines : Nat
  minefield_initialized : Bool
  minefield : Nat → Nat → Bool
  exposedfield : Nat → Nat → Bool
  numberfield : Nat → Nat → Nat

/-- Embeds `MinesweeperGame.__init__` (src/game.py) with the default
`auto_first_guess=False`: stores the arguments unchecked, allocates the
all-false exposed set, and leaves the mine data ungenerated. -/
def newGame (width height mines : Nat) : MinesweeperGame where
  width := width
  height := height
  mines := mines
  minefield_initialized := false
  minefield := fun _ _ => false
  exposedfield := fun _ _ => false
  numberfield := fun _ _ => 0

/-- `mine_array.sum()`: the number of `true` cells of a grid inside the
`width × height` rectangle. -/
def countMines (w h : Nat) (mf : Nat → Nat → Bool) : Nat :=
  ((Finset.range w ×ˢ Finset.range h).filter fun p => mf p.1 p.2 = true).card

/-- The `avoid_x-1 <= x <= avoid_x+1 and avoid_y-1 <= y <= avoid_y+1` test of
`generate_minefield`: whether a candidate cell lies in the 3×3 exclusion zone
around the first-clicked cell. -/
def inExclusion (ax ay : Int) (x y : Nat) : Bool :=
  decide (ax - 1 ≤ (x : Int) ∧ (x : Int) ≤ ax + 1 ∧ ay - 1 ≤ (y : Int) ∧ (y : Int) ≤ ay + 1)

/-- `mine_array[x][y] = True` on a function-represented grid. -/
def setMine (mf : Nat → Nat → Bool) (x y : Nat) : Nat → Nat → Bool :=
  fun a b => if a = x ∧ b = y then true else mf a b

/-- The body of the `while mine_array.sum() < self.mines` loop of
`generate_minefield`, run over the finite stream of `randrange` outputs:
each pick is placed unless the mine quota is already met or the pick lies in
the exclusion zone. -/
def placeMines (w h m : Nat) (ax ay : Int) : List (Nat × Nat) → (Nat → Nat → Bool) → (Nat → Nat → Bool)
  | [], mf => mf
  | p :: rest, mf =>
    if countMines w h mf < m then
      if inExclusion ax ay p.1 p.2 then placeMines w h m ax ay rest mf
      else placeMines w h m ax ay rest (setMine mf p.1 p.2)
    else mf

/-- Embeds `MinesweeperGame.generate_minefield` (src/game.py): starting from
the all-false grid, place mines at random picks outside the exclusion zone
around `(ax, ay)` until the quota is met (or the pick stream runs out). -/
def generate_minefield (w h m : Nat) (ax ay : Int) (picks : List (Nat × Nat)) : Nat → Nat → Bool :=
  placeMines w h m ax ay picks (fun _ _ => false)

/-- One entry of `np.pad(self.minefield, 1).astype(int)`: the minefield with a
one-cell border of zeros, as 0/1 integers. `pad mf w h i j` is the padded
array's entry at `(i, j)`. -/
def pad (mf : Nat → Nat → Bool) (w h : Nat) (i j : Nat) : Nat :=
  if 1 ≤ i ∧ i ≤ w ∧ 1 ≤ j ∧ j ≤ h then (if mf (i - 1) (j - 1) then 1 else 0) else 0

/-- Embeds `MinesweeperGame.generate_numberfield` (src/game.py): the sum of
the eight shifted slices of the padded minefield. The entry at `(x, y)` of the
slice `pf[a:w+a, b:h+b]` is `pad mf w h (x+a) (y+b)`. -/
def generate_numberfield (w h : Nat) (mf : Nat → Nat → Bool) : Nat → Nat → Nat :=
  fun x y =>
    pad mf w h x y + pad mf w h (x + 1) y + pad mf w h (x + 2) y
      + pad mf w h x (y + 1) + pad mf w h (x + 2) (y + 1)
      + pad mf w h x (y + 2) + pad mf w h (x + 1) (y + 2) + pad mf w h (x + 2) (y + 2)

/-- `self.exposedfield[x][y] = True`. -/
def setExposed (g : MinesweeperGame) (x y : Nat) : MinesweeperGame :=
  { g with exposedfield := fun a b => if a = x ∧ b = y then true else g.exposedfield a b }

/-- The initialization block of `guess`: `generate_minefield(x, y)`,
`generate_numberfield()`, `minefield_initialized = True`. -/
def initMinefield (g : MinesweeperGame) (x y : Int) (picks : List (Nat × Nat)) : MinesweeperGame :=
  let mf := generate_minefield g.width g.height g.mines x y picks
  { g with
    minefield := mf
    numberfield := generate_numberfield g.width g.height mf
    minefield_initialized := true }

/-- The nine coordinates `[x-1, x, x+1] × [y-1, y, y+1]` visited by the
flood-fill loop of `guess`, in Python's iteration order (the center cell is
among them; its re-visit is a no-op via the already-exposed guard). -/
def nbrs (x y : Int) : List (Int × Int) :=
  [(x - 1, y - 1), (x - 1, y), (x - 1, y + 1),
   (x, y - 1), (x, y), (x, y + 1),
   (x + 1, y - 1), (x + 1, y), (x + 1, y + 1)]

/-- Embeds `MinesweeperGame.guess` (src/game.py), with an explicit fuel
argument driving the recursion: bounds guard, already-exposed guard, lazy
mine generation, exposure, and the recursive flood fill when the adjacency
count at the cell is zero. Returns the mutated state and the source's boolean
return value. -/
def guessAux (picks : List (Nat × Nat)) : Nat → MinesweeperGame → Int → Int → MinesweeperGame × Bool
  | 0, g, _x, _y => (g, false)
  | fuel + 1, g, x, y =>
    if x < 0 ∨ (g.width : Int) ≤ x ∨ y < 0 ∨ (g.height : Int) ≤ y then (g, false)
    else if g.exposedfield x.toNat y.toNat = true then (g, false)
    else
      let g1 := if g.minefield_initialized then g else initMinefield g x y picks
      let g2 := setExposed g1 x.toNat y.toNat
      if g2.numberfield x.toNat y.toNat = 0 then
        let s1 := (guessAux picks fuel g2 (x - 1) (y - 1)).1
        let s2 := (guessAux picks fuel s1 (x - 1) y).1
        let s3 := (guessAux picks fuel s2 (x - 1) (y + 1)).1
        let s4 := (guessAux picks fuel s3 x (y - 1)).1
        let s5 := (guessAux picks fuel s4 x y).1
        let s6 := (guessAux picks fuel s5 x (y + 1)).1
        let s7 := (guessAux picks fuel s6 (x + 1) (y - 1)).1
        let s8 := (guessAux picks fuel s7 (x + 1) y).1
        let s9 := (guessAux picks fuel s8 (x + 1) (y + 1)).1
        (s9, true)
      else (g2, true)

/-- One flood-fill step: the state after recursively guessing one neighbor. -/
def guessStep (picks : List (Nat × Nat)) (fuel : Nat) (g : MinesweeperGame) (p : Int × Int) :
    MinesweeperGame :=
  (guessAux picks fuel g p.1 p.2).1

/-- `MinesweeperGame.guess`: the fuel `width * height + 1` is enough for the
recursion (proved below), so this is the source's `guess`. -/
def guess (picks : List (Nat × Nat)) (g : MinesweeperGame) (x y : Int) : MinesweeperGame × Bool :=
  guessAux picks (g.width * g.height + 1) g x y

/-- Embeds the `lost` property (src/game.py): some cell both contains a mine
and is exposed, `false` while the minefield is ungenerated. -/
def lost (g : MinesweeperGame) : Bool :=
  if g.minefield_initialized then
    (List.range g.width).any fun a =>
      (List.range g.height).any fun b => g.minefield a b && g.exposedfield a b
  else false

/-- Embeds the `won` property (src/game.py): every cell either contains a mine
or is exposed but not both (`np.logical_xor`), `false` while the minefield is
ungenerated. -/
def won (g : MinesweeperGame) : Bool :=
  if g.minefield_initialized then
    (List.range g.width).all fun a =>
      (List.range g.height).all fun b => xor (g.minefield a b) (g.exposedfield a b)
  else false

/-- Embeds the `is_over` property (src/game.py). -/
def is_over (g : MinesweeperGame) : Bool :=
  lost g || won g

/-- Embeds the `visible_gamestate` property (src/game.py): the numberfield
masked by the exposed set, unexposed cells filled with the sentinel `-10`;
entirely `-10` while the minefield is ungenerated. -/
def visible_gamestate (g : MinesweeperGame) : Nat → Nat → Int :=
  if g.minefield_initialized then
    fun a b => if g.exposedfield a b then (g.numberfield a b : Int) else -10
  else fun _ _ => -10

/-- Embeds `MinesweeperGame.__init__` with `auto_first_guess=True`: one guess
at the cell `(gx, gy)` delivered by the two `randrange` calls (so
`gx < width` and `gy < height`), on the freshly constructed board. -/
def newGameAuto (w h m : Nat) (gx gy : Nat) (picks : List (Nat × Nat)) : MinesweeperGame :=
  (guess picks (newGame w h m) (gx : Int) (gy : Int)).1

/-- The indicator, written from the spec's words, that the neighbor of
`(x, y)` at offset `(dx, dy)` lies within grid bounds and its mine-layout bit
is true. -/
def nbrInd (w h : Nat) (mf : Nat → Nat → Bool) (x y : Nat) (dx dy : Int) : Nat :=
  if (0 ≤ (x : Int) + dx ∧ (x : Int) + dx < (w : Int) ∧ 0 ≤ (y : Int) + dy ∧ (y : Int) + dy < (h : Int))
      ∧ mf ((x : Int) + dx).toNat ((y : Int) + dy).toNat = true then 1 else 0

/-- The number of the up-to-8 neighbors of `(x, y)` that lie within grid
bounds and carry a mine (spec-side definition of the adjacency count:
out-of-grid neighbors contribute nothing). -/
def neighborCount (w h : Nat) (mf : Nat → Nat → Bool) (x y : Nat) : Nat :=
  nbrInd w h mf x y (-1) (-1) + nbrInd w h mf x y 0 (-1) + nbrInd w h mf x y 1 (-1)
    + nbrInd w h mf x y (-1) 0 + nbrInd w h mf x y 1 0
    + nbrInd w h mf x y (-1) 1 + nbrInd w h mf x y 0 1 + nbrInd w h mf x y 1 1

/-- The number of in-grid cells not yet exposed: the measure bounding the
flood-fill recursion. -/
def unexposedCount (g : MinesweeperGame) : Nat :=
  ((Finset.range g.width ×ˢ Finset.range g.height).filter
    fun p => g.exposedfield p.1 p.2 = false).card

/-- Modelled from the spec: a constructor that "validates `width > 0`,
`height > 0`" and is "fatal at construction" for non-positive dimensions —
the validating behavior the spec ascribes to `__init__`. -/
def newGameChecked (w h m : Nat) : Option MinesweeperGame :=
  if 0 < w ∧ 0 < h then some (newGame w h m) else none

/-- The state after the guard-free part of a `guess` call: initialize the
mine data if needed, then expose the cell. -/
def exposeAt (picks : List (Nat × Nat)) (g : MinesweeperGame) (x y : Int) : MinesweeperGame :=
  setExposed (if g.minefield_initialized then g else initMinefield g x y picks) x.toNat y.toNat

lemma guessAux_succ (picks : List (Nat × Nat)) (fuel : Nat) (g : MinesweeperGame) (x y : Int) :
    guessAux picks (fuel + 1) g x y =
      if x < 0 ∨ (g.width : Int) ≤ x ∨ y < 0 ∨ (g.height : Int) ≤ y then (g, false)
      else if g.exposedfield x.toNat y.toNat = true then (g, false)
      else if (exposeAt picks g x y).numberfield x.toNat y.toNat = 0 then
        (List.foldl (guessStep picks fuel) (exposeAt picks g x y) (nbrs x y), true)
      else (exposeAt picks g x y, true) := by
  simp only [guessAux, exposeAt, nbrs, guessStep, List.foldl]

lemma foldl_preserve_mem {α : Type} (P : MinesweeperGame → Prop)
    (f : MinesweeperGame → α → MinesweeperGame) :
    ∀ (l : List α), (∀ s p, p ∈ l → P s → P (f s p)) →
      ∀ s, P s → P (List.foldl f s l) := by
  intro l
  induction l with
  | nil => intro _ s hs; exact hs
  | cons p rest ih =>
    intro hf s hs
    exact ih (fun s' q hq => hf s' q (List.mem_cons_of_mem p hq)) (f s p)
      (hf s p (List.mem_cons_self p rest) hs)

lemma guessAux_preserve (P : MinesweeperGame → Prop)
    (hset : ∀ g x y, P g → P (setExposed g x y))
    (hini : ∀ g x y picks, P g → P (initMinefield g x y picks))
    (picks : List (Nat × Nat)) :
    ∀ (fuel : Nat) (g : MinesweeperGame) (x y : Int), P g → P (guessAux picks fuel g x y).1 := by
  intro fuel
  induction fuel with
  | zero => intro g x y hg; exact hg
  | succ f ih =>
    intro g x y hg
    rw [guessAux_succ]
    have hE : P (exposeAt picks g x y) := by
      unfold exposeAt
      apply hset
      split
      · exact hg
      · exact hini g x y picks hg
    split
    · exact hg
    split
    · exact hg
    split
    · exact foldl_preserve_mem P (guessStep picks f) (nbrs x y)
        (fun s p _ hs => ih s p.1 p.2 hs) _ hE
    · exact hE

lemma guessAux_preserve_init (P : MinesweeperGame → Prop)
    (hflag : ∀ g, P g → g.minefield_initialized = true)
    (hset : ∀ g x y, P g → P (setExposed g x y))
    (picks : List (Nat × Nat)) :
    ∀ (fuel : Nat) (g : MinesweeperGame) (x y : Int), P g → P (guessAux picks fuel g x y).1 := by
  intro fuel
  induction fuel with
  | zero => intro g x y hg; exact hg
  | succ f ih =>
    intro g x y hg
    rw [guessAux_succ]
    have hE : P (exposeAt picks g x y) := by
      unfold exposeAt
      rw [if_pos (hflag g hg)]
      exact hset g x.toNat y.toNat hg
    split
    · exact hg
    split
    · exact hg
    split
    · exact foldl_preserve_mem P (guessStep picks f) (nbrs x y)
        (fun s p _ hs => ih s p.1 p.2 hs) _ hE
    · exact hE

lemma guessAux_dims (picks : List (Nat × Nat)) (fuel : Nat) (g : MinesweeperGame) (x y : Int) :
    (guessAux picks fuel g x y).1.width = g.width ∧
      (guessAux picks fuel g x y).1.height = g.height ∧
      (guessAux picks fuel g x y).1.mines = g.mines :=
  guessAux_preserve
    (fun s => s.width = g.width ∧ s.height = g.height ∧ s.mines = g.mines)
    (fun _ _ _ h => h) (fun _ _ _ _ h => h) picks fuel g x y ⟨rfl, rfl, rfl⟩

lemma guessAux_fields (picks : List (Nat × Nat)) (fuel : Nat) (g : MinesweeperGame) (x y : Int)
    (h : g.minefield_initialized = true) :
    (guessAux picks fuel g x y).1.minefield = g.minefield ∧
      (guessAux picks fuel g x y).1.numberfield = g.numberfield ∧
      (guessAux picks fuel g x y).1.minefield_initialized = true :=
  guessAux_preserve_init
    (fun s => s.minefield = g.minefield ∧ s.numberfield = g.numberfield ∧
      s.minefield_initialized = true)
    (fun _ hs => hs.2.2) (fun _ _ _ hs => hs) picks fuel g x y ⟨rfl, rfl, h⟩

lemma setExposed_mono (g : MinesweeperGame) (x y a b : Nat)
    (h : g.exposedfield a b = true) : (setExposed g x y).exposedfield a b = true := by
  simp only [setExposed]
  split
  · rfl
  · exact h

lemma guessAux_mono (picks : List (Nat × Nat)) (fuel : Nat) (g : MinesweeperGame) (x y : Int) :
    ∀ a b, g.exposedfield a b = true → (guessAux picks fuel g x y).1.exposedfield a b = true :=
  guessAux_preserve
    (fun s => ∀ a b, g.exposedfield a b = true → s.exposedfield a b = true)
    (fun s x' y' hs a b hab => setExposed_mono s x' y' a b (hs a b hab))
    (fun _ _ _ _ hs => hs) picks fuel g x y (fun _ _ hab => hab)

lemma unexposedCount_le (picks : List (Nat × Nat)) (fuel : Nat) (g : MinesweeperGame)
    (x y : Int) : unexposedCount (guessAux picks fuel g x y).1 ≤ unexposedCount g := by
  have hd := guessAux_dims picks fuel g x y
  have hm := guessAux_mono picks fuel g x y
  apply Finset.card_le_card
  intro p hp
  simp only [Finset.mem_filter, Finset.mem_product, Finset.mem_range] at hp ⊢
  obtain ⟨⟨h1, h2⟩, h3⟩ := hp
  refine ⟨⟨by rw [hd.1] at h1; exact h1, by rw [hd.2.1] at h2; exact h2⟩, ?_⟩
  by_contra hc
  have : g.exposedfield p.1 p.2 = true := by
    cases hgx : g.exposedfield p.1 p.2
    · exact absurd hgx hc
    · rfl
  rw [hm p.1 p.2 this] at h3
  exact absurd h3 (by simp)

lemma unexposedCount_le_area (g : MinesweeperGame) :
    unexposedCount g ≤ g.width * g.height := by
  calc unexposedCount g ≤ (Finset.range g.width ×ˢ Finset.range g.height).card :=
        Finset.card_filter_le _ _
    _ = g.width * g.height := by rw [Finset.card_product, Finset.card_range, Finset.card_range]

lemma unexposedCount_setExposed (g : MinesweeperGame) (a b : Nat) (ha : a < g.width)
    (hb : b < g.height) (hx : g.exposedfield a b = false) :
    unexposedCount (setExposed g a b) + 1 ≤ unexposedCount g := by
  have hmem : (a, b) ∈ (Finset.range g.width ×ˢ Finset.range g.height).filter
      (fun p => g.exposedfield p.1 p.2 = false) := by
    simp only [Finset.mem_filter, Finset.mem_product, Finset.mem_range]
    exact ⟨⟨ha, hb⟩, hx⟩
  have hsub : ((Finset.range g.width ×ˢ Finset.range g.height).filter
        (fun p => (setExposed g a b).exposedfield p.1 p.2 = false)) ⊆
      ((Finset.range g.width ×ˢ Finset.range g.height).filter
        (fun p => g.exposedfield p.1 p.2 = false)).erase (a, b) := by
    intro p hp
    simp only [Finset.mem_filter, Finset.mem_product, Finset.mem_range] at hp
    obtain ⟨⟨h1, h2⟩, h3⟩ := hp
    have hpe : ¬(p.1 = a ∧ p.2 = b) := by
      intro he
      rw [setExposed] at h3
      simp only [he.1, he.2, and_self, if_true] at h3
      exact absurd h3 (by simp)
    rw [Finset.mem_erase]
    constructor
    · intro he
      exact hpe ⟨by rw [he], by rw [he]⟩
    · simp only [Finset.mem_filter, Finset.mem_product, Finset.mem_range]
      refine ⟨⟨h1, h2⟩, ?_⟩
      rw [setExposed] at h3
      simp only at h3
      split at h3
      · exact absurd h3 (by simp)
      · exact h3
  have hcard := Finset.card_le_card hsub
  rw [Finset.card_erase_of_mem hmem] at hcard
  have hpos : 1 ≤ ((Finset.range g.width ×ˢ Finset.range g.height).filter
      (fun p => g.exposedfield p.1 p.2 = false)).card := Finset.card_pos.2 ⟨_, hmem⟩
  unfold unexposedCount
  simp only [setExposed] at hcard ⊢
  omega

lemma exposeAt_fields (picks : List (Nat × Nat)) (g : MinesweeperGame) (x y : Int) :
    (exposeAt picks g x y).width = g.width ∧ (exposeAt picks g x y).height = g.height ∧
      (exposeAt picks g x y).exposedfield =
        (fun a b => if a = x.toNat ∧ b = y.toNat then true else g.exposedfield a b) := by
  unfold exposeAt setExposed
  split
  · exact ⟨rfl, rfl, rfl⟩
  · exact ⟨rfl, rfl, rfl⟩

lemma exposeAt_count (picks : List (Nat × Nat)) (g : MinesweeperGame) (x y : Int)
    (hx : 0 ≤ x) (hx2 : x < (g.width : Int)) (hy : 0 ≤ y) (hy2 : y < (g.height : Int))
    (hne : g.exposedfield x.toNat y.toNat = false) :
    unexposedCount (exposeAt picks g x y) + 1 ≤ unexposedCount g := by
  unfold exposeAt
  have hb1 : x.toNat < g.width := by omega
  have hb2 : y.toNat < g.height := by omega
  split
  · exact unexposedCount_setExposed g x.toNat y.toNat hb1 hb2 hne
  · have h1 : unexposedCount (setExposed (initMinefield g x y picks) x.toNat y.toNat) + 1 ≤
        unexposedCount (initMinefield g x y picks) :=
      unexposedCount_setExposed (initMinefield g x y picks) x.toNat y.toNat hb1 hb2 hne
    have h2 : unexposedCount (initMinefield g x y picks) = unexposedCount g := rfl
    rw [h2] at h1
    exact h1

lemma foldl_fuel_eq (picks : List (Nat × Nat)) (f : Nat)
    (ih : ∀ g x y, unexposedCount g < f → guessAux picks f g x y = guessAux picks (f + 1) g x y) :
    ∀ (l : List (Int × Int)) (s : MinesweeperGame), unexposedCount s < f →
      List.foldl (guessStep picks f) s l = List.foldl (guessStep picks (f + 1)) s l := by
  intro l
  induction l with
  | nil => intro s _; rfl
  | cons p rest ihl =>
    intro s hs
    have hstep : guessStep picks (f + 1) s p = guessStep picks f s p := by
      unfold guessStep
      rw [ih s p.1 p.2 hs]
    have hcount : unexposedCount (guessStep picks f s p) ≤ unexposedCount s :=
      unexposedCount_le picks f s p.1 p.2
    simp only [List.foldl]
    rw [hstep]
    exact ihl (guessStep picks f s p) (lt_of_le_of_lt hcount hs)

lemma guessAux_fuel_succ (picks : List (Nat × Nat)) :
    ∀ (fuel : Nat) (g : MinesweeperGame) (x y : Int), unexposedCount g < fuel →
      guessAux picks fuel g x y = guessAux picks (fuel + 1) g x y := by
  intro fuel
  induction fuel with
  | zero => intro g x y h; exact absurd h (Nat.not_lt_zero _)
  | succ f ih =>
    intro g x y h
    rw [guessAux_succ picks f g x y, guessAux_succ picks (f + 1) g x y]
    split
    · rfl
    split
    · rfl
    · rename_i hguard hexp
      have hb : 0 ≤ x ∧ x < (g.width : Int) ∧ 0 ≤ y ∧ y < (g.height : Int) := by omega
      have hne : g.exposedfield x.toNat y.toNat = false := by
        cases he : g.exposedfield x.toNat y.toNat
        · rfl
        · exact absurd he hexp
      have hcE : unexposedCount (exposeAt picks g x y) < f := by
        have := exposeAt_count picks g x y hb.1 hb.2.1 hb.2.2.1 hb.2.2.2 hne
        omega
      split
      · rw [foldl_fuel_eq picks f ih (nbrs x y) (exposeAt picks g x y) hcE]
      · rfl

lemma guessAux_fuel_ge (picks : List (Nat × Nat)) (g : MinesweeperGame) (x y : Int)
    (fuel fuel' : Nat) (h : unexposedCount g < fuel) (hle : fuel ≤ fuel') :
    guessAux picks fuel g x y = guessAux picks fuel' g x y := by
  obtain ⟨k, rfl⟩ : ∃ k, fuel' = fuel + k := ⟨fuel' - fuel, by omega⟩
  induction k with
  | zero => rfl
  | succ n ihn =>
    rw [ihn (by omega), show fuel + (n + 1) = (fuel + n) + 1 from rfl]
    exact guessAux_fuel_succ picks (fuel + n) g x y (by omega)

lemma guess_eq_guessAux (picks : List (Nat × Nat)) (g : MinesweeperGame) (x y : Int)
    (fuel : Nat) (h : unexposedCount g < fuel) :
    guess picks g x y = guessAux picks fuel g x y := by
  unfold guess
  have h2 : unexposedCount g < g.width * g.height + 1 := by
    have := unexposedCount_le_area g
    omega
  rcases le_total fuel (g.width * g.height + 1) with hle | hle
  · exact (guessAux_fuel_ge picks g x y fuel _ h hle).symm
  · exact guessAux_fuel_ge picks g x y _ fuel h2 hle

@[simp] lemma setExposed_width (g : MinesweeperGame) (x y : Nat) :
    (setExposed g x y).width = g.width := rfl

@[simp] lemma setExposed_height (g : MinesweeperGame) (x y : Nat) :
    (setExposed g x y).height = g.height := rfl

@[simp] lemma setExposed_minefield (g : MinesweeperGame) (x y : Nat) :
    (setExposed g x y).minefield = g.minefield := rfl

@[simp] lemma setExposed_numberfield (g : MinesweeperGame) (x y : Nat) :
    (setExposed g x y).numberfield = g.numberfield := rfl

@[simp] lemma setExposed_flag (g : MinesweeperGame) (x y : Nat) :
    (setExposed g x y).minefield_initialized = g.minefield_initialized := rfl

@[simp] lemma initMinefield_width (g : MinesweeperGame) (x y : Int) (picks : List (Nat × Nat)) :
    (initMinefield g x y picks).width = g.width := rfl

@[simp] lemma initMinefield_height (g : MinesweeperGame) (x y : Int) (picks : List (Nat × Nat)) :
    (initMinefield g x y picks).height = g.height := rfl

@[simp] lemma initMinefield_exposedfield (g : MinesweeperGame) (x y : Int)
    (picks : List (Nat × Nat)) :
    (initMinefield g x y picks).exposedfield = g.exposedfield := rfl

@[simp] lemma initMinefield_flag (g : MinesweeperGame) (x y : Int) (picks : List (Nat × Nat)) :
    (initMinefield g x y picks).minefield_initialized = true := rfl

@[simp] lemma initMinefield_minefield (g : MinesweeperGame) (x y : Int)
    (picks : List (Nat × Nat)) :
    (initMinefield g x y picks).minefield =
      generate_minefield g.width g.height g.mines x y picks := rfl

@[simp] lemma initMinefield_numberfield (g : MinesweeperGame) (x y : Int)
    (picks : List (Nat × Nat)) :
    (initMinefield g x y picks).numberfield =
      generate_numberfield g.width g.height
        (generate_minefield g.width g.height g.mines x y picks) := rfl

lemma pad_term (w h : Nat) (mf : Nat → Nat → Bool) (x y i j : Nat) (dx dy : Int)
    (hi : (i : Int) = (x : Int) + 1 + dx) (hj : (j : Int) = (y : Int) + 1 + dy) :
    pad mf w h i j = nbrInd w h mf x y dx dy := by
  unfold pad nbrInd
  by_cases hb : 1 ≤ i ∧ i ≤ w ∧ 1 ≤ j ∧ j ≤ h
  · have hb' : 0 ≤ (x : Int) + dx ∧ (x : Int) + dx < (w : Int) ∧
        0 ≤ (y : Int) + dy ∧ (y : Int) + dy < (h : Int) := by omega
    have e1 : i - 1 = ((x : Int) + dx).toNat := by omega
    have e2 : j - 1 = ((y : Int) + dy).toNat := by omega
    rw [if_pos hb, e1, e2]
    by_cases hm : mf ((x : Int) + dx).toNat ((y : Int) + dy).toNat = true
    · rw [if_pos hm, if_pos ⟨hb', hm⟩]
    · rw [if_neg hm, if_neg (fun hc => hm hc.2)]
  · have hb' : ¬(0 ≤ (x : Int) + dx ∧ (x : Int) + dx < (w : Int) ∧
        0 ≤ (y : Int) + dy ∧ (y : Int) + dy < (h : Int)) := by omega
    rw [if_neg hb, if_neg (fun hc => hb' hc.1)]

lemma generate_numberfield_eq (w h : Nat) (mf : Nat → Nat → Bool) (x y : Nat) :
    generate_numberfield w h mf x y = neighborCount w h mf x y := by
  unfold generate_numberfield neighborCount
  rw [pad_term w h mf x y x y (-1) (-1) (by omega) (by omega),
    pad_term w h mf x y (x + 1) y 0 (-1) (by omega) (by omega),
    pad_term w h mf x y (x + 2) y 1 (-1) (by omega) (by omega),
    pad_term w h mf x y x (y + 1) (-1) 0 (by omega) (by omega),
    pad_term w h mf x y (x + 2) (y + 1) 1 0 (by omega) (by omega),
    pad_term w h mf x y x (y + 2) (-1) 1 (by omega) (by omega),
    pad_term w h mf x y (x + 1) (y + 2) 0 1 (by omega) (by omega),
    pad_term w h mf x y (x + 2) (y + 2) 1 1 (by omega) (by omega)]

lemma nbrInd_zero (w h : Nat) (mf : Nat → Nat → Bool) (xn yn : Nat) (dx dy : Int) (a b : Nat)
    (hz : nbrInd w h mf xn yn dx dy = 0)
    (hia : (a : Int) = (xn : Int) + dx) (hib : (b : Int) = (yn : Int) + dy)
    (haw : a < w) (hbh : b < h) : mf a b = false := by
  unfold nbrInd at hz
  have e1 : ((xn : Int) + dx).toNat = a := by omega
  have e2 : ((yn : Int) + dy).toNat = b := by omega
  rw [e1, e2] at hz
  by_cases hm : mf a b = true
  · rw [if_pos ⟨by omega, hm⟩] at hz
    exact absurd hz one_ne_zero
  · cases hv : mf a b
    · rfl
    · exact absurd hv hm

lemma zero_nbrs (w h : Nat) (mf : Nat → Nat → Bool) (x y : Int)
    (hx : 0 ≤ x) (hx2 : x < (w : Int)) (hy : 0 ≤ y) (hy2 : y < (h : Int))
    (h0 : generate_numberfield w h mf x.toNat y.toNat = 0)
    (hc : mf x.toNat y.toNat = false) :
    ∀ p ∈ nbrs x y, (0 ≤ p.1 ∧ p.1 < (w : Int) ∧ 0 ≤ p.2 ∧ p.2 < (h : Int)) →
      mf p.1.toNat p.2.toNat = false := by
  have hval : neighborCount w h mf x.toNat y.toNat = 0 := by
    rw [← generate_numberfield_eq]; exact h0
  unfold neighborCount at hval
  have z1 : nbrInd w h mf x.toNat y.toNat (-1) (-1) = 0 := by omega
  have z2 : nbrInd w h mf x.toNat y.toNat 0 (-1) = 0 := by omega
  have z3 : nbrInd w h mf x.toNat y.toNat 1 (-1) = 0 := by omega
  have z4 : nbrInd w h mf x.toNat y.toNat (-1) 0 = 0 := by omega
  have z5 : nbrInd w h mf x.toNat y.toNat 1 0 = 0 := by omega
  have z6 : nbrInd w h mf x.toNat y.toNat (-1) 1 = 0 := by omega
  have z7 : nbrInd w h mf x.toNat y.toNat 0 1 = 0 := by omega
  have z8 : nbrInd w h mf x.toNat y.toNat 1 1 = 0 := by omega
  intro p hp hpb
  simp only [nbrs, List.mem_cons, List.not_mem_nil, or_false] at hp
  rcases hp with rfl | rfl | rfl | rfl | rfl | rfl | rfl | rfl | rfl
  · exact nbrInd_zero w h mf x.toNat y.toNat (-1) (-1) (x - 1).toNat (y - 1).toNat z1
      (by omega) (by omega) (by omega) (by omega)
  · exact nbrInd_zero w h mf x.toNat y.toNat (-1) 0 (x - 1).toNat y.toNat z4
      (by omega) (by omega) (by omega) (by omega)
  · exact nbrInd_zero w h mf x.toNat y.toNat (-1) 1 (x - 1).toNat (y + 1).toNat z6
      (by omega) (by omega) (by omega) (by omega)
  · exact nbrInd_zero w h mf x.toNat y.toNat 0 (-1) x.toNat (y - 1).toNat z2
      (by omega) (by omega) (by omega) (by omega)
  · exact hc
  · exact nbrInd_zero w h mf x.toNat y.toNat 0 1 x.toNat (y + 1).toNat z7
      (by omega) (by omega) (by omega) (by omega)
  · exact nbrInd_zero w h mf x.toNat y.toNat 1 (-1) (x + 1).toNat (y - 1).toNat z3
      (by omega) (by omega) (by omega) (by omega)
  · exact nbrInd_zero w h mf x.toNat y.toNat 1 0 (x + 1).toNat y.toNat z5
      (by omega) (by omega) (by omega) (by omega)
  · exact nbrInd_zero w h mf x.toNat y.toNat 1 1 (x + 1).toNat (y + 1).toNat z8
      (by omega) (by omega) (by omega) (by omega)

lemma placeMines_exclusion (w h m : Nat) (ax ay : Int) :
    ∀ (picks : List (Nat × Nat)) (mf : Nat → Nat → Bool),
      (∀ a b, inExclusion ax ay a b = true → mf a b = false) →
      ∀ a b, inExclusion ax ay a b = true → placeMines w h m ax ay picks mf a b = false := by
  intro picks
  induction picks with
  | nil => intro mf hmf a b hab; exact hmf a b hab
  | cons p rest ih =>
    intro mf hmf a b hab
    unfold placeMines
    split
    · split
      · exact ih mf hmf a b hab
      · rename_i hquota hexcl
        apply ih
        · intro a' b' hab'
          unfold setMine
          split
          · rename_i he
            obtain ⟨rfl, rfl⟩ := he
            exact absurd hab' hexcl
          · exact hmf a' b' hab'
        · exact hab
    · exact hmf a b hab

lemma generate_minefield_exclusion (w h m : Nat) (ax ay : Int) (picks : List (Nat × Nat))
    (a b : Nat) (hab : inExclusion ax ay a b = true) :
    generate_minefield w h m ax ay picks a b = false :=
  placeMines_exclusion w h m ax ay picks (fun _ _ => false) (fun _ _ _ => rfl) a b hab

lemma nbrs_inExclusion (x y : Int) :
    ∀ p ∈ nbrs x y, 0 ≤ p.1 → 0 ≤ p.2 → inExclusion x y p.1.toNat p.2.toNat = true := by
  intro p hp h1 h2
  simp only [nbrs, List.mem_cons, List.not_mem_nil, or_false] at hp
  rcases hp with rfl | rfl | rfl | rfl | rfl | rfl | rfl | rfl | rfl <;>
    · simp only [inExclusion, decide_eq_true_eq]
      omega

lemma xor_eq_true_iff (a b : Bool) : xor a b = true ↔ a ≠ b := by
  cases a <;> cases b <;> simp

lemma lost_iff (g : MinesweeperGame) :
    lost g = true ↔ (g.minefield_initialized = true ∧
      ∃ a, a < g.width ∧ ∃ b, b < g.height ∧
        g.minefield a b = true ∧ g.exposedfield a b = true) := by
  unfold lost
  cases hf : g.minefield_initialized
  · simp
  · simp only [if_true, List.any_eq_true, List.mem_range, Bool.and_eq_true, true_and]

lemma won_iff (g : MinesweeperGame) :
    won g = true ↔ (g.minefield_initialized = true ∧
      ∀ a, a < g.width → ∀ b, b < g.height → g.minefield a b ≠ g.exposedfield a b) := by
  unfold won
  cases hf : g.minefield_initialized
  · simp
  · simp only [if_true, List.all_eq_true, List.mem_range, true_and]
    constructor
    · intro hall a ha b hb
      exact (xor_eq_true_iff _ _).1 (hall a ha b hb)
    · intro hall a ha b hb
      exact (xor_eq_true_iff _ _).2 (hall a ha b hb)

lemma guessAux_init_unfold (picks : List (Nat × Nat)) (fuel : Nat) (g : MinesweeperGame)
    (x y : Int) (hflag : g.minefield_initialized = false)
    (hg1 : ¬(x < 0 ∨ (g.width : Int) ≤ x ∨ y < 0 ∨ (g.height : Int) ≤ y))
    (hg2 : ¬(g.exposedfield x.toNat y.toNat = true)) :
    guessAux picks (fuel + 1) g x y = guessAux picks (fuel + 1) (initMinefield g x y picks) x y := by
  rw [guessAux_succ, guessAux_succ]
  have hE : exposeAt picks (initMinefield g x y picks) x y = exposeAt picks g x y := by
    unfold exposeAt
    rw [hflag]
    simp only [initMinefield_flag, if_true, Bool.false_eq_true, if_false]
  simp only [initMinefield_width, initMinefield_height, initMinefield_exposedfield, hE,
    if_neg hg1, if_neg hg2]

@[simp] lemma newGame_width (w h m : Nat) : (newGame w h m).width = w := rfl

@[simp] lemma newGame_height (w h m : Nat) : (newGame w h m).height = h := rfl

@[simp] lemma newGame_mines (w h m : Nat) : (newGame w h m).mines = m := rfl

@[simp] lemma newGame_flag (w h m : Nat) : (newGame w h m).minefield_initialized = false := rfl

@[simp] lemma newGame_exposedfield (w h m : Nat) (a b : Nat) :
    (newGame w h m).exposedfield a b = false := rfl

/-- The key invariant of the flood fill: on an initialized board whose cached
`numberfield` agrees with its `minefield`, a `guess` call whose target is not
mined never exposes a mined cell (recursive expansion starts only from
zero-count cells, whose in-grid neighbors are all mine-free). -/
lemma guessAux_no_mine_exposed (picks : List (Nat × Nat)) :
    ∀ (fuel : Nat) (g : MinesweeperGame) (x y : Int),
      g.minefield_initialized = true →
      g.numberfield = generate_numberfield g.width g.height g.minefield →
      (∀ a, a < g.width → ∀ b, b < g.height →
        g.minefield a b = true → g.exposedfield a b = false) →
      ((0 ≤ x ∧ x < (g.width : Int) ∧ 0 ≤ y ∧ y < (g.height : Int)) →
        g.minefield x.toNat y.toNat = false) →
      ∀ a, a < g.width → ∀ b, b < g.height → g.minefield a b = true →
        (guessAux picks fuel g x y).1.exposedfield a b = false := by
  intro fuel
  induction fuel with
  | zero => intro g x y _ _ hinv _ a ha b hb hm; exact hinv a ha b hb hm
  | succ f ih =>
    intro g x y hflag hcons hinv htar a ha b hb hm
    rw [guessAux_succ]
    split
    · exact hinv a ha b hb hm
    split
    · exact hinv a ha b hb hm
    rename_i hg1 hg2
    have hbnd : 0 ≤ x ∧ x < (g.width : Int) ∧ 0 ≤ y ∧ y < (g.height : Int) := by omega
    have htar' : g.minefield x.toNat y.toNat = false := htar hbnd
    have hEeq : exposeAt picks g x y = setExposed g x.toNat y.toNat := by
      unfold exposeAt
      rw [if_pos hflag]
    have hinvE : ∀ a', a' < g.width → ∀ b', b' < g.height →
        g.minefield a' b' = true → (exposeAt picks g x y).exposedfield a' b' = false := by
      intro a' ha' b' hb' hm'
      rw [hEeq]
      simp only [setExposed]
      split
      · rename_i he
        rw [he.1, he.2] at hm'
        exact absurd hm' (by simp [htar'])
      · exact hinv a' ha' b' hb' hm'
    split
    · rename_i hzero
      have hnum : g.numberfield x.toNat y.toNat = 0 := by
        rw [hEeq] at hzero
        exact hzero
      have h0 : generate_numberfield g.width g.height g.minefield x.toNat y.toNat = 0 := by
        have := congrFun (congrFun hcons x.toNat) y.toNat
        rw [← this]
        exact hnum
      have hzn := zero_nbrs g.width g.height g.minefield x y hbnd.1 hbnd.2.1 hbnd.2.2.1
        hbnd.2.2.2 h0 htar'
      have hres := foldl_preserve_mem
        (fun s => s.width = g.width ∧ s.height = g.height ∧ s.minefield = g.minefield ∧
          s.numberfield = g.numberfield ∧ s.minefield_initialized = true ∧
          (∀ a', a' < g.width → ∀ b', b' < g.height → g.minefield a' b' = true →
            s.exposedfield a' b' = false))
        (guessStep picks f) (nbrs x y)
        (by
          intro s p hp hs
          obtain ⟨hw, hh, hmf, hnf, hfl, hin⟩ := hs
          have hd := guessAux_dims picks f s p.1 p.2
          have hfds := guessAux_fields picks f s p.1 p.2 hfl
          refine ⟨?_, ?_, ?_, ?_, ?_, ?_⟩
          · rw [guessStep, hd.1, hw]
          · rw [guessStep, hd.2.1, hh]
          · rw [guessStep, hfds.1, hmf]
          · rw [guessStep, hfds.2.1, hnf]
          · rw [guessStep]
            exact hfds.2.2
          · have happ := ih s p.1 p.2 hfl
              (by rw [hnf, hw, hh, hmf]; exact hcons)
              (by
                intro a' ha' b' hb' hm'
                rw [hmf] at hm'
                rw [hw] at ha'
                rw [hh] at hb'
                exact hin a' ha' b' hb' hm')
              (by
                intro hbp
                rw [hmf]
                rw [hw, hh] at hbp
                exact hzn p hp ⟨hbp.1, hbp.2.1, hbp.2.2.1, hbp.2.2.2⟩)
            intro a' ha' b' hb' hm'
            rw [guessStep]
            have ha'' : a' < s.width := by rw [hw]; exact ha'
            have hb'' : b' < s.height := by rw [hh]; exact hb'
            have hm'' : s.minefield a' b' = true := by rw [hmf]; exact hm'
            exact happ a' ha'' b' hb'' hm'')
        (exposeAt picks g x y)
        (by
          refine ⟨?_, ?_, ?_, ?_, ?_, hinvE⟩
          · rw [hEeq]; rfl
          · rw [hEeq]; rfl
          · rw [hEeq]; rfl
          · rw [hEeq]; rfl
          · rw [hEeq, setExposed_flag]; exact hflag)
      exact hres.2.2.2.2.2 a ha b hb hm
    · exact hinvE a ha b hb hm

lemma guessAux_succ_invalid (picks : List (Nat × Nat)) (fuel : Nat) (g : MinesweeperGame)
    (x y : Int)
    (h : (x < 0 ∨ (g.width : Int) ≤ x ∨ y < 0 ∨ (g.height : Int) ≤ y) ∨
      g.exposedfield x.toNat y.toNat = true) :
    guessAux picks (fuel + 1) g x y = (g, false) := by
  rw [guessAux_succ]
  by_cases hgd : x < 0 ∨ (g.width : Int) ≤ x ∨ y < 0 ∨ (g.height : Int) ≤ y
  · rw [if_pos hgd]
  · rcases h with h | h
    · exact absurd h hgd
    · rw [if_neg hgd, if_pos h]

lemma guessAux_succ_valid (picks : List (Nat × Nat)) (fuel : Nat) (g : MinesweeperGame)
    (x y : Int)
    (h1 : ¬(x < 0 ∨ (g.width : Int) ≤ x ∨ y < 0 ∨ (g.height : Int) ≤ y))
    (h2 : ¬(g.exposedfield x.toNat y.toNat = true)) :
    (guessAux picks (fuel + 1) g x y).2 = true := by
  rw [guessAux_succ, if_neg h1, if_neg h2]
  split <;> rfl

lemma pad_le_one (mf : Nat → Nat → Bool) (w h i j : Nat) : pad mf w h i j ≤ 1 := by
  unfold pad
  split
  · split <;> omega
  · omega

lemma generate_numberfield_le (w h : Nat) (mf : Nat → Nat → Bool) (x y : Nat) :
    generate_numberfield w h mf x y ≤ 8 := by
  unfold generate_numberfield
  have p1 := pad_le_one mf w h x y
  have p2 := pad_le_one mf w h (x + 1) y
  have p3 := pad_le_one mf w h (x + 2) y
  have p4 := pad_le_one mf w h x (y + 1)
  have p5 := pad_le_one mf w h (x + 2) (y + 1)
  have p6 := pad_le_one mf w h x (y + 2)
  have p7 := pad_le_one mf w h (x + 1) (y + 2)
  have p8 := pad_le_one mf w h (x + 2) (y + 2)
  omega

lemma foldl_unexposedCount_le (picks : List (Nat × Nat)) (f : Nat) :
    ∀ (l : List (Int × Int)) (s : MinesweeperGame),
      unexposedCount (List.foldl (guessStep picks f) s l) ≤ unexposedCount s := by
  intro l
  induction l with
  | nil => intro s; exact le_refl _
  | cons p rest ih =>
    intro s
    calc unexposedCount (List.foldl (guessStep picks f) (guessStep picks f s p) rest) ≤
          unexposedCount (guessStep picks f s p) := ih _
      _ ≤ unexposedCount s := unexposedCount_le picks f s p.1 p.2

/-- A 2×2 board with one mine at `(0, 0)` and consistent cached adjacency
counts, nothing exposed yet: a concrete initialized state for witnesses. -/
def mineA : Nat → Nat → Bool := fun a b => decide (a = 0 ∧ b = 0)

def gameA : MinesweeperGame where
  width := 2
  height := 2
  mines := 1
  minefield_initialized := true
  minefield := mineA
  exposedfield := fun _ _ => false
  numberfield := generate_numberfield 2 2 mineA

/-- `gameA` after the mined cell `(0, 0)` has been exposed: a lost game. -/
def gameLost : MinesweeperGame :=
  { gameA with exposedfield := fun a b => decide (a = 0 ∧ b = 0) }

/-- C1: for every board and all integer inputs, `guess` returns `invalid`
(`false`) exactly when the coordinate is out of bounds or the cell is already
exposed, and in that case the exposed set, mine layout, adjacency counts and
initialization flag are all unchanged; in every other case it returns `valid`
(`true`). -/
theorem C1_reveal_invalid_iff (picks : List (Nat × Nat)) (g : MinesweeperGame) (x y : Int) :
    ((guess picks g x y).2 = false ↔
      (¬(0 ≤ x ∧ x < (g.width : Int) ∧ 0 ≤ y ∧ y < (g.height : Int)) ∨
        g.exposedfield x.toNat y.toNat = true))
    ∧ ((guess picks g x y).2 = false →
        (guess picks g x y).1.exposedfield = g.exposedfield ∧
        (guess picks g x y).1.minefield = g.minefield ∧
        (guess picks g x y).1.numberfield = g.numberfield ∧
        (guess picks g x y).1.minefield_initialized = g.minefield_initialized) := by
  unfold guess
  by_cases hgd : x < 0 ∨ (g.width : Int) ≤ x ∨ y < 0 ∨ (g.height : Int) ≤ y
  · rw [guessAux_succ_invalid picks _ g x y (Or.inl hgd)]
    refine ⟨⟨fun _ => Or.inl (by omega), fun _ => rfl⟩, fun _ => ⟨rfl, rfl, rfl, rfl⟩⟩
  · by_cases hexp : g.exposedfield x.toNat y.toNat = true
    · rw [guessAux_succ_invalid picks _ g x y (Or.inr hexp)]
      refine ⟨⟨fun _ => Or.inr hexp, fun _ => rfl⟩, fun _ => ⟨rfl, rfl, rfl, rfl⟩⟩
    · have hv := guessAux_succ_valid picks (g.width * g.height) g x y hgd hexp
      rw [hv]
      refine ⟨⟨fun hc => absurd hc (by simp), fun hor => ?_⟩, fun hc => absurd hc (by simp)⟩
      rcases hor with hb | he
      · exact absurd (by omega : ¬(x < 0 ∨ (g.width : Int) ≤ x ∨ y < 0 ∨ (g.height : Int) ≤ y) → False) (by omega)
      · exact absurd he hexp

theorem C1_reveal_invalid_iff_witness :
    ((guess [] gameA (-1) 0).2 = false ↔
      (¬((0:Int) ≤ -1 ∧ (-1:Int) < (gameA.width : Int) ∧ (0:Int) ≤ 0 ∧ (0:Int) < (gameA.height : Int)) ∨
        gameA.exposedfield (-1 : Int).toNat (0 : Int).toNat = true))
    ∧ ((guess [] gameA (-1) 0).2 = false →
        (guess [] gameA (-1) 0).1.exposedfield = gameA.exposedfield ∧
        (guess [] gameA (-1) 0).1.minefield = gameA.minefield ∧
        (guess [] gameA (-1) 0).1.numberfield = gameA.numberfield ∧
        (guess [] gameA (-1) 0).1.minefield_initialized = gameA.minefield_initialized) :=
  C1_reveal_invalid_iff [] gameA (-1) 0

/-- C2: after mine placement (the `initMinefield` step of the first valid
guess), the cached adjacency count of every in-bounds cell equals the number
of its up-to-8 in-grid neighbors whose mine bit is set; mined cells are not
special-cased. -/
theorem C2_adjacency_counts (g : MinesweeperGame) (x y : Int) (picks : List (Nat × Nat))
    (a b : Nat) (_ha : a < g.width) (_hb : b < g.height) :
    (initMinefield g x y picks).numberfield a b =
      neighborCount g.width g.height (initMinefield g x y picks).minefield a b := by
  rw [initMinefield_numberfield, initMinefield_minefield]
  exact generate_numberfield_eq g.width g.height _ a b

theorem C2_adjacency_counts_witness :
    0 < gameA.width ∧ 1 < gameA.height ∧
      (initMinefield gameA 0 0 [(1, 1)]).numberfield 0 1 =
        neighborCount gameA.width gameA.height (initMinefield gameA 0 0 [(1, 1)]).minefield 0 1 :=
  ⟨by decide, by decide, C2_adjacency_counts gameA 0 0 [(1, 1)] 0 1 (by decide) (by decide)⟩

/-- C4: `won` holds exactly when the mines are placed and every cell is
exactly one of mined/exposed; `lost` holds exactly when the mines are placed
and some cell is both mined and exposed; before placement both are `false`. -/
theorem C4_won_lost_characterization (g : MinesweeperGame) :
    (won g = true ↔ (g.minefield_initialized = true ∧
      ∀ a, a < g.width → ∀ b, b < g.height → g.minefield a b ≠ g.exposedfield a b))
    ∧ (lost g = true ↔ (g.minefield_initialized = true ∧
      ∃ a, a < g.width ∧ ∃ b, b < g.height ∧
        g.minefield a b = true ∧ g.exposedfield a b = true))
    ∧ (g.minefield_initialized = false → won g = false ∧ lost g = false) := by
  refine ⟨won_iff g, lost_iff g, ?_⟩
  intro hf
  unfold won lost
  rw [hf]
  simp

theorem C4_won_lost_characterization_witness :
    (won gameLost = true ↔ (gameLost.minefield_initialized = true ∧
      ∀ a, a < gameLost.width → ∀ b, b < gameLost.height →
        gameLost.minefield a b ≠ gameLost.exposedfield a b))
    ∧ (lost gameLost = true ↔ (gameLost.minefield_initialized = true ∧
      ∃ a, a < gameLost.width ∧ ∃ b, b < gameLost.height ∧
        gameLost.minefield a b = true ∧ gameLost.exposedfield a b = true))
    ∧ (gameLost.minefield_initialized = false →
        won gameLost = false ∧ lost gameLost = false) :=
  C4_won_lost_characterization gameLost

/-- C7 counterexample: the source constructor performs no dimension
validation. At width 0 the spec-modelled validating constructor rejects, yet
the code's constructor returns a fully formed zero-width board — the claimed
"no empty or malformed grid can ever exist" is false of the code. -/
theorem C7_construction_counterexample :
    newGameChecked 0 1 0 = none
    ∧ (newGame 0 1 0).width = 0
    ∧ (newGame 0 1 0).minefield_initialized = false
    ∧ (∀ a b, (newGame 0 1 0).exposedfield a b = false) :=
  ⟨rfl, rfl, rfl, fun _ _ => rfl⟩

/-- C7 (amended): construction performs no validation at all — `__init__`
stores any dimensions (including zero) as given, allocates the all-false
exposed set and leaves the mine data ungenerated, so a degenerate empty grid
can exist. -/
theorem C7_construction_unchecked (w h m : Nat) :
    (newGame w h m).width = w ∧ (newGame w h m).height = h ∧ (newGame w h m).mines = m
    ∧ (newGame w h m).minefield_initialized = false
    ∧ (∀ a b, (newGame w h m).exposedfield a b = false) :=
  ⟨rfl, rfl, rfl, rfl, fun _ _ => rfl⟩

/-- C10: on an initialized board with consistent cached counts, every exposed
cell — including an exposed mined cell, which gets no distinct marker — shows
its own adjacency count (a value in `[0, 8]`), and every unexposed cell shows
the sentinel `-10`. -/
theorem C10_visible_state (g : MinesweeperGame)
    (hflag : g.minefield_initialized = true)
    (hcons : g.numberfield = generate_numberfield g.width g.height g.minefield) :
    ∀ a b : Nat,
      (g.exposedfield a b = true →
        visible_gamestate g a b = (g.numberfield a b : Int) ∧
        0 ≤ visible_gamestate g a b ∧ visible_gamestate g a b ≤ 8)
      ∧ (g.minefield a b = true → g.exposedfield a b = true →
        visible_gamestate g a b = (g.numberfield a b : Int))
      ∧ (g.exposedfield a b = false → visible_gamestate g a b = -10) := by
  intro a b
  have h8 : g.numberfield a b ≤ 8 := by
    rw [congrFun (congrFun hcons a) b]
    exact generate_numberfield_le g.width g.height g.minefield a b
  unfold visible_gamestate
  rw [if_pos hflag]
  refine ⟨?_, ?_, ?_⟩
  · intro he
    rw [if_pos he]
    exact ⟨rfl, Int.natCast_nonneg _, by exact_mod_cast h8⟩
  · intro _ he
    rw [if_pos he]
  · intro he
    rw [if_neg (by simp [he])]

theorem C10_visible_state_witness :
    (gameLost.exposedfield 0 0 = true →
      visible_gamestate gameLost 0 0 = (gameLost.numberfield 0 0 : Int) ∧
      0 ≤ visible_gamestate gameLost 0 0 ∧ visible_gamestate gameLost 0 0 ≤ 8)
    ∧ (gameLost.minefield 0 0 = true → gameLost.exposedfield 0 0 = true →
      visible_gamestate gameLost 0 0 = (gameLost.numberfield 0 0 : Int))
    ∧ (gameLost.exposedfield 0 0 = false → visible_gamestate gameLost 0 0 = -10) :=
  C10_visible_state gameLost rfl rfl 0 0

/-- C5: on a board where no mined cell is exposed (initialized, with cached
counts consistent with the layout), a reveal whose target is not mined leaves
every mined cell unexposed — the flood fill, triggered only from zero-count
cells, never exposes a mine; only a reveal aimed directly at a mined cell can
expose one. -/
theorem C5_flood_fill_safe (picks : List (Nat × Nat)) (g : MinesweeperGame) (x y : Int)
    (hflag : g.minefield_initialized = true)
    (hcons : g.numberfield = generate_numberfield g.width g.height g.minefield)
    (hinv : ∀ a, a < g.width → ∀ b, b < g.height →
      g.minefield a b = true → g.exposedfield a b = false)
    (htar : (0 ≤ x ∧ x < (g.width : Int) ∧ 0 ≤ y ∧ y < (g.height : Int)) →
      g.minefield x.toNat y.toNat = false) :
    ∀ a, a < g.width → ∀ b, b < g.height → g.minefield a b = true →
      (guess picks g x y).1.exposedfield a b = false := by
  unfold guess
  exact guessAux_no_mine_exposed picks _ g x y hflag hcons hinv htar

theorem C5_flood_fill_safe_witness :
    gameA.minefield_initialized = true
    ∧ gameA.numberfield = generate_numberfield gameA.width gameA.height gameA.minefield
    ∧ (∀ a, a < gameA.width → ∀ b, b < gameA.height →
        gameA.minefield a b = true → gameA.exposedfield a b = false)
    ∧ (∀ a, a < gameA.width → ∀ b, b < gameA.height → gameA.minefield a b = true →
        (guess [] gameA 1 1).1.exposedfield a b = false) :=
  ⟨rfl, rfl, by decide,
    C5_flood_fill_safe [] gameA 1 1 rfl rfl (by decide) (by decide)⟩

/-- C6: for every board and all integer inputs, the reveal recursion
terminates within the grid-size fuel bound (any fuel beyond the number of
unexposed cells produces the same result, so `guess`'s fixed fuel already
does), the exposed set only grows, its growth is bounded by the finite grid,
and a `valid` call strictly grows it — each cell flips to exposed at most
once. -/
theorem C6_termination_and_growth (picks : List (Nat × Nat)) (g : MinesweeperGame)
    (x y : Int) (fuel : Nat) (hfuel : unexposedCount g < fuel) :
    guess picks g x y = guessAux picks fuel g x y
    ∧ (∀ a b, g.exposedfield a b = true → (guess picks g x y).1.exposedfield a b = true)
    ∧ unexposedCount (guess picks g x y).1 ≤ unexposedCount g
    ∧ ((guess picks g x y).2 = true →
        unexposedCount (guess picks g x y).1 < unexposedCount g) := by
  refine ⟨guess_eq_guessAux picks g x y fuel hfuel, guessAux_mono picks _ g x y,
    unexposedCount_le picks _ g x y, ?_⟩
  intro hvalid
  unfold guess at hvalid ⊢
  by_cases h1 : x < 0 ∨ (g.width : Int) ≤ x ∨ y < 0 ∨ (g.height : Int) ≤ y
  · rw [guessAux_succ_invalid picks _ g x y (Or.inl h1)] at hvalid
    exact absurd hvalid (by simp)
  by_cases h2 : g.exposedfield x.toNat y.toNat = true
  · rw [guessAux_succ_invalid picks _ g x y (Or.inr h2)] at hvalid
    exact absurd hvalid (by simp)
  have hb : 0 ≤ x ∧ x < (g.width : Int) ∧ 0 ≤ y ∧ y < (g.height : Int) := by omega
  have hne : g.exposedfield x.toNat y.toNat = false := by
    cases hv : g.exposedfield x.toNat y.toNat
    · rfl
    · exact absurd hv h2
  have hcE := exposeAt_count picks g x y hb.1 hb.2.1 hb.2.2.1 hb.2.2.2 hne
  rw [guessAux_succ, if_neg h1, if_neg h2]
  split
  · have hfold := foldl_unexposedCount_le picks (g.width * g.height) (nbrs x y)
      (exposeAt picks g x y)
    simp only
    omega
  · simp only
    omega

theorem C6_termination_and_growth_witness :
    unexposedCount gameA < 5
    ∧ guess [] gameA 1 1 = guessAux [] 5 gameA 1 1
    ∧ (∀ a b, gameA.exposedfield a b = true →
        (guess [] gameA 1 1).1.exposedfield a b = true)
    ∧ unexposedCount (guess [] gameA 1 1).1 ≤ unexposedCount gameA
    ∧ ((guess [] gameA 1 1).2 = true →
        unexposedCount (guess [] gameA 1 1).1 < unexposedCount gameA) := by
  have h := C6_termination_and_growth [] gameA 1 1 5 (by decide)
  exact ⟨by decide, h.1, h.2.1, h.2.2.1, h.2.2.2⟩

/-- C8: `guess` never consults `lost`/`won`: even on a finished board, a call
at an in-bounds, still-unexposed cell is accepted, returns `valid`, and
exposes the target cell just as in a live game. -/
theorem C8_no_game_over_check (picks : List (Nat × Nat)) (g : MinesweeperGame) (x y : Int)
    (_hover : lost g = true ∨ won g = true)
    (hin : 0 ≤ x ∧ x < (g.width : Int) ∧ 0 ≤ y ∧ y < (g.height : Int))
    (hunexp : g.exposedfield x.toNat y.toNat = false) :
    (guess picks g x y).2 = true
    ∧ (guess picks g x y).1.exposedfield x.toNat y.toNat = true := by
  have h1 : ¬(x < 0 ∨ (g.width : Int) ≤ x ∨ y < 0 ∨ (g.height : Int) ≤ y) := by omega
  have h2 : ¬(g.exposedfield x.toNat y.toNat = true) := by
    rw [hunexp]
    simp
  unfold guess
  constructor
  · exact guessAux_succ_valid picks _ g x y h1 h2
  · rw [guessAux_succ, if_neg h1, if_neg h2]
    have hE : (exposeAt picks g x y).exposedfield x.toNat y.toNat = true := by
      rw [(exposeAt_fields picks g x y).2.2]
      simp
    split
    · exact foldl_preserve_mem (fun s => s.exposedfield x.toNat y.toNat = true)
        (guessStep picks (g.width * g.height)) (nbrs x y)
        (fun s p _ hs => guessAux_mono picks _ s p.1 p.2 x.toNat y.toNat hs) _ hE
    · exact hE

theorem C8_no_game_over_check_witness :
    (lost gameLost = true ∨ won gameLost = true)
    ∧ ((0 : Int) ≤ 1 ∧ (1 : Int) < (gameLost.width : Int) ∧
        (0 : Int) ≤ 1 ∧ (1 : Int) < (gameLost.height : Int))
    ∧ gameLost.exposedfield (1 : Int).toNat (1 : Int).toNat = false
    ∧ (guess [] gameLost 1 1).2 = true
    ∧ (guess [] gameLost 1 1).1.exposedfield (1 : Int).toNat (1 : Int).toNat = true := by
  have h := C8_no_game_over_check [] gameLost 1 1 (Or.inl (by decide)) (by decide) (by decide)
  exact ⟨Or.inl (by decide), by decide, by decide, h.1, h.2⟩

/-- C9: constructing with `auto_first_guess=True` performs one guess at the
in-range cell delivered by `randrange` before returning, so the mine data is
already generated and that cell is exposed — unlike default construction,
which leaves the mines unplaced and every cell unexposed. -/
theorem C9_auto_first_guess (w h m : Nat) (gx gy : Nat) (picks : List (Nat × Nat))
    (hgx : gx < w) (hgy : gy < h) :
    ((newGameAuto w h m gx gy picks).minefield_initialized = true
      ∧ (newGameAuto w h m gx gy picks).exposedfield gx gy = true)
    ∧ ((newGame w h m).minefield_initialized = false
      ∧ ∀ a b, (newGame w h m).exposedfield a b = false) := by
  have h1 : ¬((gx : Int) < 0 ∨ ((newGame w h m).width : Int) ≤ (gx : Int) ∨
      (gy : Int) < 0 ∨ ((newGame w h m).height : Int) ≤ (gy : Int)) := by
    simp only [newGame_width, newGame_height]
    omega
  have h2 : ¬((newGame w h m).exposedfield (gx : Int).toNat (gy : Int).toNat = true) := by
    simp
  have hEflag : (exposeAt picks (newGame w h m) (gx : Int) (gy : Int)).minefield_initialized
      = true := by
    unfold exposeAt
    rw [if_neg (by simp)]
    rfl
  have hEexp : (exposeAt picks (newGame w h m) (gx : Int) (gy : Int)).exposedfield gx gy
      = true := by
    rw [(exposeAt_fields picks (newGame w h m) (gx : Int) (gy : Int)).2.2]
    simp
  refine ⟨⟨?_, ?_⟩, rfl, fun a b => rfl⟩
  · unfold newGameAuto guess
    rw [guessAux_succ, if_neg h1, if_neg h2]
    split
    · exact (foldl_preserve_mem (fun s => s.minefield_initialized = true)
        (guessStep picks _) (nbrs (gx : Int) (gy : Int))
        (fun s p _ hs => (guessAux_fields picks _ s p.1 p.2 hs).2.2) _ hEflag)
    · exact hEflag
  · unfold newGameAuto guess
    rw [guessAux_succ, if_neg h1, if_neg h2]
    split
    · exact (foldl_preserve_mem (fun s => s.exposedfield gx gy = true)
        (guessStep picks _) (nbrs (gx : Int) (gy : Int))
        (fun s p _ hs => guessAux_mono picks _ s p.1 p.2 gx gy hs) _ hEexp)
    · exact hEexp

theorem C9_auto_first_guess_witness :
    1 < 3 ∧ 0 < 3
    ∧ ((newGameAuto 3 3 2 1 0 [(0, 0), (2, 2), (2, 0)]).minefield_initialized = true
      ∧ (newGameAuto 3 3 2 1 0 [(0, 0), (2, 2), (2, 0)]).exposedfield 1 0 = true)
    ∧ ((newGame 3 3 2).minefield_initialized = false
      ∧ ∀ a b, (newGame 3 3 2).exposedfield a b = false) := by
  have h := C9_auto_first_guess 3 3 2 1 0 [(0, 0), (2, 2), (2, 0)] (by decide) (by decide)
  exact ⟨by decide, by decide, h.1, h.2⟩

/-- C3: the first reveal on a fresh board at an in-bounds cell places no mine
on that cell or any of its up-to-8 neighbors (the placement loop rejects the
whole exclusion zone, whatever the random stream), and consequently `lost` is
still `false` immediately after that call. -/
theorem C3_first_reveal_safe (w h m : Nat) (picks : List (Nat × Nat)) (x y : Int)
    (hx : 0 ≤ x) (hx2 : x < (w : Int)) (hy : 0 ≤ y) (hy2 : y < (h : Int)) :
    (∀ p ∈ nbrs x y, 0 ≤ p.1 → 0 ≤ p.2 →
      (guess picks (newGame w h m) x y).1.minefield p.1.toNat p.2.toNat = false)
    ∧ lost (guess picks (newGame w h m) x y).1 = false := by
  have hg1 : ¬(x < 0 ∨ ((newGame w h m).width : Int) ≤ x ∨ y < 0 ∨
      ((newGame w h m).height : Int) ≤ y) := by
    simp only [newGame_width, newGame_height]
    omega
  have hg2 : ¬((newGame w h m).exposedfield x.toNat y.toNat = true) := by simp
  have hstep : guess picks (newGame w h m) x y =
      guessAux picks ((newGame w h m).width * (newGame w h m).height + 1)
        (initMinefield (newGame w h m) x y picks) x y := by
    unfold guess
    exact guessAux_init_unfold picks _ (newGame w h m) x y rfl hg1 hg2
  rw [hstep]
  have hflagG1 : (initMinefield (newGame w h m) x y picks).minefield_initialized = true := rfl
  have hfds := guessAux_fields picks ((newGame w h m).width * (newGame w h m).height + 1)
    (initMinefield (newGame w h m) x y picks) x y hflagG1
  have hdims := guessAux_dims picks ((newGame w h m).width * (newGame w h m).height + 1)
    (initMinefield (newGame w h m) x y picks) x y
  have hmf : (initMinefield (newGame w h m) x y picks).minefield =
      generate_minefield w h m x y picks := rfl
  have htar : (0 ≤ x ∧ x < ((initMinefield (newGame w h m) x y picks).width : Int) ∧
      0 ≤ y ∧ y < ((initMinefield (newGame w h m) x y picks).height : Int)) →
      (initMinefield (newGame w h m) x y picks).minefield x.toNat y.toNat = false := by
    intro _
    rw [hmf]
    apply generate_minefield_exclusion
    simp only [inExclusion, decide_eq_true_eq]
    omega
  have hinvres := guessAux_no_mine_exposed picks
    ((newGame w h m).width * (newGame w h m).height + 1)
    (initMinefield (newGame w h m) x y picks) x y hflagG1 rfl
    (fun a _ b _ _ => rfl) htar
  constructor
  · intro p hp h1 h2
    rw [hfds.1, hmf]
    exact generate_minefield_exclusion w h m x y picks _ _ (nbrs_inExclusion x y p hp h1 h2)
  · cases hl : lost (guessAux picks ((newGame w h m).width * (newGame w h m).height + 1)
        (initMinefield (newGame w h m) x y picks) x y).1
    · rfl
    · exfalso
      obtain ⟨_, a, ha, b, hb, hm2, he⟩ := (lost_iff _).1 hl
      rw [hdims.1] at ha
      rw [hdims.2.1] at hb
      rw [hfds.1] at hm2
      have := hinvres a ha b hb hm2
      rw [this] at he
      exact absurd he (by simp)

theorem C3_first_reveal_safe_witness :
    (0 : Int) ≤ 0 ∧ (0 : Int) < (4 : Int) ∧
    (∀ p ∈ nbrs 0 0, 0 ≤ p.1 → 0 ≤ p.2 →
      (guess [(3, 3), (0, 1), (2, 3)] (newGame 4 4 1) 0 0).1.minefield p.1.toNat p.2.toNat
        = false)
    ∧ lost (guess [(3, 3), (0, 1), (2, 3)] (newGame 4 4 1) 0 0).1 = false := by
  have h := C3_first_reveal_safe 4 4 1 [(3, 3), (0, 1), (2, 3)] 0 0
    (by decide) (by decide) (by decide) (by decide)
  exact ⟨by decide, by decide, h.1, h.2⟩

example : generate_numberfield 2 2 (fun a b => decide (a = 0 ∧ b = 0)) 1 1 = 1 := by decide

example : generate_numberfield 3 3 (fun a b => decide (a = 0 ∧ b = 0)) 0 1 = 1 := by decide

example : (guess [] (newGame 2 2 0) 0 0).2 = true := by decide

example : won (guess [] (newGame 2 2 0) 0 0).1 = true := by decide

end Minesweeper
